import Mathlib

/-!
Verification of the flux-streamlit application (src/main.py).

Python strings are modelled as `List Char` (one element per code point, which
matches Python's code-point indexing and slicing).  Bytes objects are
`List Nat`.  The stateful parts (filesystem, HTTP, the asyncio polling loop)
are modelled by explicit state passing and event traces.
-/

/-- Convert a Lean string literal to the `List Char` model of a Python string. -/
def pys (s : String) : List Char := s.data

/-- Python `str.isspace` for a single character, modelled exactly on the
Latin-1 range (code points up to U+00FF): TAB..CR (0x09-0x0D), FS..US
(0x1C-0x1F), space, NEL (0x85) and NBSP (0xA0).  Code points above U+00FF are
outside the modelled fragment and are mapped to `false`. -/
def pyIsSpace (c : Char) : Bool :=
  let n := c.toNat
  if n = 32 ∨ (9 ≤ n ∧ n ≤ 13) ∨ (28 ≤ n ∧ n ≤ 31) ∨ n = 0x85 ∨ n = 0xA0 then true else false

/-- Python `str.isalnum` for a single character, modelled exactly on the
Latin-1 range (code points up to U+00FF): ASCII letters and digits, the
letters ª µ º, the digit characters ² ³ ¹, the numeric characters ¼ ½ ¾, and
the letters U+00C0-U+00FF except × (0xD7) and ÷ (0xF7).  Code points above
U+00FF are outside the modelled fragment and are mapped to `false`;
universally quantified theorems about prompts therefore restrict to the
Latin-1 range. -/
def pyIsAlnum (c : Char) : Bool :=
  let n := c.toNat
  if c.isAlphanum then true
  else if n = 0xAA ∨ n = 0xB2 ∨ n = 0xB3 ∨ n = 0xB5 ∨ n = 0xB9 ∨ n = 0xBA
        ∨ n = 0xBC ∨ n = 0xBD ∨ n = 0xBE then true
  else if 0xC0 ≤ n ∧ n ≤ 0xFF ∧ n ≠ 0xD7 ∧ n ≠ 0xF7 then true
  else false

/-- Python `str.rstrip()` with no argument: remove trailing whitespace. -/
def pyRstrip (s : List Char) : List Char :=
  (s.reverse.dropWhile pyIsSpace).reverse

/-- Python `str.strip()` with no argument: remove leading and trailing
whitespace. -/
def pyStrip (s : List Char) : List Char :=
  ((s.dropWhile pyIsSpace).reverse.dropWhile pyIsSpace).reverse

/-- Python `str.startswith`: `isPre pat s` is true when `pat` is a prefix of
`s`. -/
def isPre : List Char → List Char → Bool
  | [], _ => true
  | _ :: _, [] => false
  | p :: ps, c :: cs => p == c && isPre ps cs

/-- `mism pat t` is true when `pat` and `t` differ at some position inside
their common length, so `pat` cannot be a prefix of any extension of `t`. -/
def mism : List Char → List Char → Bool
  | p :: ps, c :: cs => p != c || mism ps cs
  | _, _ => false

/-- Split a string at the first (leftmost) occurrence of `pat`, returning the
part before and the part after the occurrence; `none` if `pat` does not
occur.  This is the semantics of Python's `str.split(pat, 1)` /
`str.find(pat)`. -/
def splitOnFirst (pat : List Char) : List Char → Option (List Char × List Char)
  | [] => if pat = [] then some ([], []) else none
  | c :: rest =>
    if isPre pat (c :: rest) then some ([], (c :: rest).drop pat.length)
    else match splitOnFirst pat rest with
      | some (a, b) => some (c :: a, b)
      | none => none

/-- Python's `pat in s` substring test. -/
def containsSub (pat s : List Char) : Bool := (splitOnFirst pat s).isSome

/-- Fuel-driven worker for `pyReplace`; the fuel is an upper bound on the
number of characters still to be scanned, so `fuel = s.length` never runs
out. -/
def pyReplaceFuel (pat repl : List Char) : Nat → List Char → List Char
  | 0, s => s
  | _ + 1, [] => []
  | fuel + 1, c :: rest =>
    if pat ≠ [] ∧ isPre pat (c :: rest) then
      repl ++ pyReplaceFuel pat repl fuel ((c :: rest).drop pat.length)
    else c :: pyReplaceFuel pat repl fuel rest

/-- Python `str.replace(pat, repl)`: replace every non-overlapping occurrence
of `pat`, scanning left to right.  (Python's behaviour for an empty `pat`,
which inserts `repl` between characters, is not modelled; the program only
replaces non-empty literals.) -/
def pyReplace (pat repl s : List Char) : List Char :=
  pyReplaceFuel pat repl s.length s

/-- Python `str.split(sep)` with an explicit one-character separator: split at
every occurrence, keeping empty pieces; the result is never empty. -/
def pySplit (sep : Char) : List Char → List (List Char)
  | [] => [[]]
  | c :: rest =>
    if c = sep then [] :: pySplit sep rest
    else match pySplit sep rest with
      | h :: t => (c :: h) :: t
      | [] => [[c]]

/-- The decimal digit character for `d % 10`. -/
def digitChar (d : Nat) : Char :=
  if d = 0 then '0' else if d = 1 then '1' else if d = 2 then '2'
  else if d = 3 then '3' else if d = 4 then '4' else if d = 5 then '5'
  else if d = 6 then '6' else if d = 7 then '7' else if d = 8 then '8' else '9'

/-- Fuel-driven decimal rendering of a natural number; `fuel = n + 1` is
always enough. -/
def natCharsFuel : Nat → Nat → List Char
  | 0, _ => []
  | fuel + 1, n =>
    if n < 10 then [digitChar n]
    else natCharsFuel fuel (n / 10) ++ [digitChar (n % 10)]

/-- Python `str(n)` for a natural number. -/
def natChars (n : Nat) : List Char := natCharsFuel (n + 1) n

/-- Python `str(n)` for an integer. -/
def intChars (n : Int) : List Char :=
  if n < 0 then '-' :: natChars n.natAbs else natChars n.toNat

/-- Zero-pad to two digits, as `strftime` does for `%m %d %H %M %S`. -/
def pad2 (n : Nat) : List Char :=
  if n < 10 then '0' :: natChars n else natChars n

/-- Zero-pad to four digits, as `strftime` does for `%Y`. -/
def pad4 (n : Nat) : List Char :=
  if n < 10 then '0' :: '0' :: '0' :: natChars n
  else if n < 100 then '0' :: '0' :: natChars n
  else if n < 1000 then '0' :: natChars n
  else natChars n

/-- The wall-clock instant returned by `datetime.now()`. -/
structure PyDateTime where
  year : Nat
  month : Nat
  day : Nat
  hour : Nat
  minute : Nat
  second : Nat
deriving DecidableEq

/-- `datetime.now().strftime("%Y-%m-%d %H:%M:%S")` (src/main.py line 88). -/
def fmtDateTime (t : PyDateTime) : List Char :=
  pad4 t.year ++ pys ("-") ++ pad2 t.month ++ pys ("-") ++ pad2 t.day ++
  pys (" ") ++ pad2 t.hour ++ pys (":") ++ pad2 t.minute ++ pys (":") ++ pad2 t.second

/-- `datetime.now().strftime("%Y-%m-%d-%H%M")` (src/main.py line 110). -/
def fmtTimestampMinute (t : PyDateTime) : List Char :=
  pad4 t.year ++ pys ("-") ++ pad2 t.month ++ pys ("-") ++ pad2 t.day ++
  pys ("-") ++ pad2 t.hour ++ pad2 t.minute

/-! ## Data model (spec section 3, as produced by the fal.ai collaborator) -/

/-- One element of the result's `images` list: `{url: ...}`. -/
structure GenImage where
  url : List Char
deriving DecidableEq

/-- A generation result dictionary.  Each field is optional because the source
accesses `seed` and `has_nsfw_concepts` with `result.get(..., 'Not specified')`
and guards `images` with `'images' in result`. -/
structure GenerationResult where
  images : Option (List GenImage)
  seed : Option Int
  has_nsfw_concepts : Option Bool
deriving DecidableEq

/-- The string interpolated for `result.get('seed', 'Not specified')` in the
f-string of `format_markdown` (src/main.py line 90). -/
def seedStr : Option Int → List Char
  | some n => intChars n
  | none => pys ("Not specified")

/-- The string interpolated for `result.get('has_nsfw_concepts', 'Not
specified')` (src/main.py line 91); Python prints booleans as `True`/`False`. -/
def nsfwStr : Option Bool → List Char
  | some true => pys ("True")
  | some false => pys ("False")
  | none => pys ("Not specified")

/-- The string interpolated for
`result['images'][0]['url'] if 'images' in result and result['images'] else
'No image URL available'` (src/main.py line 98). -/
def imageUrlStr : Option (List GenImage) → List Char
  | some (i :: _) => i.url
  | some [] => pys ("No image URL available")
  | none => pys ("No image URL available")

/-- `format_markdown` (src/main.py lines 81-101).  The source reads the clock
itself via `datetime.now()`; the instant is passed in as `now`.
`guidance_scale` is a float in the source and is modelled by its decimal
rendering, which is all the function uses. -/
def format_markdown (prompt : List Char) (result : GenerationResult)
    (model image_size : List Char) (num_inference_steps : Nat)
    (guidance_scale safety_tolerance : List Char) (now : PyDateTime) : List Char :=
  pys ("# Image Generation Results\n\n## Prompt\n") ++ prompt ++
  pys ("\n\n## Generation Details\n- **Date and Time:** ") ++ fmtDateTime now ++
  pys ("\n- **Model:** ") ++ model ++
  pys ("\n- **Seed:** ") ++ seedStr result.seed ++
  pys ("\n- **NSFW Concepts Detected:** ") ++ nsfwStr result.has_nsfw_concepts ++
  pys ("\n- **Image Size:** ") ++ image_size ++
  pys ("\n- **Number of Inference Steps:** ") ++ natChars num_inference_steps ++
  pys ("\n- **Guidance Scale:** ") ++ guidance_scale ++
  pys ("\n- **Safety Tolerance:** ") ++ safety_tolerance ++
  pys ("\n\n## Image URL\n") ++ imageUrlStr result.images ++
  pys ("\n\n")

/-- The prompt sanitization of `save_image_and_markdown` (src/main.py lines
113-114): `"".join(c for c in prompt if c.isalnum() or c in (' ', '-',
'_')).rstrip()`, then `[:50]`. -/
def pySanitizePrompt (prompt : List Char) : List Char :=
  (pyRstrip (prompt.filter fun c => pyIsAlnum c || c == ' ' || c == '-' || c == '_')).take 50

/-! ## Filesystem and export routine -/

/-- Contents of a file on disk: a PNG image saved via `image.save` (carrying
the decoded image data) or a text file written via `write`. -/
inductive FileContent where
  | image (data : List Nat)
  | text (s : List Char)
deriving DecidableEq

/-- A filesystem: the directories that exist and the files, as an association
list with the most recent write first. -/
structure FS where
  dirs : List (List Char)
  files : List (List Char × FileContent)
deriving DecidableEq

/-- `os.makedirs(d, exist_ok=True)`. -/
def mkdirFS (d : List Char) (fs : FS) : FS := { fs with dirs := d :: fs.dirs }

/-- Writing a file (`image.save` / `open(..., 'w').write`); a later write to
the same path shadows an earlier one. -/
def writeFS (p : List Char) (c : FileContent) (fs : FS) : FS :=
  { fs with files := (p, c) :: fs.files }

/-- Look up the current content of a path. -/
def lookupFS : List (List Char × FileContent) → List Char → Option FileContent
  | [], _ => none
  | (p, c) :: rest, q => if p = q then some c else lookupFS rest q

/-- The on-disk size of a file content (code points for text, bytes for
images). -/
def sizeOfContent : FileContent → Nat
  | FileContent.image d => d.length
  | FileContent.text s => s.length

/-- `os.path.getsize`; the source only calls it on the file it has just
written, so the missing-file case (which would raise) is mapped to 0. -/
def pyGetsize (fs : FS) (p : List Char) : Nat :=
  match lookupFS fs.files p with
  | some c => sizeOfContent c
  | none => 0

/-- `os.path.join` for the shapes the source uses (relative directory plus a
relative file name). -/
def pyPathJoin (a b : List Char) : List Char :=
  if a = [] then b
  else if a.getLast? = some '/' then a ++ b
  else a ++ pys ("/") ++ b

/-- An HTTP response as observed through `requests.get`. -/
structure HttpResponse where
  status_code : Nat
  content : List Nat
deriving DecidableEq

/-- The errors raised inside the `try` block of `save_image_and_markdown`:
`DownloadFailed s` is the `IOError(f"Failed to download image. Status code:
{s}")` of line 140, `DecodeFailed` the exception propagated from
`Image.open`, `EmptyMetadata` the `IOError("Markdown file is empty after
writing")` of line 136. -/
inductive ExportError where
  | DownloadFailed (statusCode : Nat)
  | DecodeFailed
  | EmptyMetadata
deriving DecidableEq

/-- The external collaborators of the export routine: the HTTP client
(`requests.get`), the image decoder (`Image.open` over the downloaded bytes,
`none` when decoding raises), the wall clock, and the application directory
`os.path.dirname(__file__)`. -/
structure ExportEnv where
  httpGet : List Char → HttpResponse
  decode : List Nat → Option (List Nat)
  now : PyDateTime
  appDir : List Char

/-- The arguments of `save_image_and_markdown` (src/main.py line 103). -/
structure ExportArgs where
  url : List Char
  prompt : List Char
  result : GenerationResult
  model : List Char
  image_size : List Char
  num_inference_steps : Nat
  guidance_scale : List Char
  safety_tolerance : List Char

/-- The `try` block of `save_image_and_markdown` (src/main.py lines 104-140):
the raised error, or the two paths, together with the filesystem as left
behind. -/
def save_image_and_markdown_try (env : ExportEnv) (a : ExportArgs) (fs : FS) :
    Except ExportError (List Char × List Char) × FS :=
  let response := env.httpGet a.url
  if response.status_code = 200 then
    match env.decode response.content with
    | none => (Except.error ExportError.DecodeFailed, fs)
    | some image =>
      let timestamp := fmtTimestampMinute env.now
      let safe_prompt := pySanitizePrompt a.prompt
      let filename_base := timestamp ++ pys ("_") ++ safe_prompt
      let images_folder := pyPathJoin env.appDir (pys ("images"))
      let fs1 := mkdirFS images_folder fs
      let full_image_path := pyPathJoin images_folder (filename_base ++ pys (".png"))
      let fs2 := writeFS full_image_path (FileContent.image image) fs1
      let full_markdown_path := pyPathJoin images_folder (filename_base ++ pys (".md"))
      let markdown_content := format_markdown a.prompt a.result a.model a.image_size
        a.num_inference_steps a.guidance_scale a.safety_tolerance env.now
      let fs3 := writeFS full_markdown_path (FileContent.text markdown_content) fs2
      if pyGetsize fs3 full_markdown_path = 0 then
        (Except.error ExportError.EmptyMetadata, fs3)
      else
        (Except.ok (full_image_path, full_markdown_path), fs3)
  else
    (Except.error (ExportError.DownloadFailed response.status_code), fs)

/-- `save_image_and_markdown` (src/main.py lines 103-143): the `except` clause
catches every error from the `try` block, prints it (the third component) and
returns `(None, None)`. -/
def save_image_and_markdown (env : ExportEnv) (a : ExportArgs) (fs : FS) :
    (Option (List Char) × Option (List Char)) × FS × Option ExportError :=
  match save_image_and_markdown_try env a fs with
  | (Except.ok (p, m), fs') => ((some p, some m), fs', none)
  | (Except.error e, fs') => ((none, none), fs', some e)

/-- Modelled from the spec: the outcome the amended claim C1 describes — on a
non-success HTTP status the routine internally raises `DownloadFailed` with
that status and returns `(None, None)` with no file created; on an
undecodable body it internally raises `DecodeFailed` and returns
`(None, None)` with no file created; otherwise it creates the directory,
writes the image and the metadata document, and returns both paths. -/
def exportOutcomeSpec (env : ExportEnv) (a : ExportArgs) (fs : FS) :
    (Option (List Char) × Option (List Char)) × FS × Option ExportError :=
  let response := env.httpGet a.url
  if response.status_code = 200 then
    match env.decode response.content with
    | none => ((none, none), fs, some ExportError.DecodeFailed)
    | some image =>
      let base := fmtTimestampMinute env.now ++ pys ("_") ++ pySanitizePrompt a.prompt
      let folder := pyPathJoin env.appDir (pys ("images"))
      let imgPath := pyPathJoin folder (base ++ pys (".png"))
      let mdPath := pyPathJoin folder (base ++ pys (".md"))
      let md := format_markdown a.prompt a.result a.model a.image_size
        a.num_inference_steps a.guidance_scale a.safety_tolerance env.now
      let fs' := writeFS mdPath (FileContent.text md)
        (writeFS imgPath (FileContent.image image) (mkdirFS folder fs))
      ((some imgPath, some mdPath), fs', none)
  else
    ((none, none), fs, some (ExportError.DownloadFailed response.status_code))

/-! ## Job runner (`run_with_spinner`, src/main.py lines 70-75 and 260-265)

The asyncio concurrency is cooperative: `asyncio.create_task` only schedules
the coroutine, which first runs when the awaiting coroutine yields control at
`await asyncio.sleep(3)`.  A job is therefore modelled by the number of sleep
intervals of the polling loop after which `task.done()` becomes true, and by
its outcome (a result or a raised exception).  Because the task cannot run
before the loop's first sleep, `task.done()` is false until at least one
sleep has completed, whence `settleTime` below is at least 1. -/

/-- A submitted generation job: how many completed sleep intervals of the
polling loop it needs before `task.done()` observes it settled, and its
outcome (`Except.error` models a coroutine that raises). -/
structure Job (E R : Type) where
  settleAfter : Nat
  outcome : Except E R

/-- The number of completed sleeps after which `task.done()` is true.  The
task cannot settle before the event loop has run it once, i.e. before the
first sleep, so this is at least 1. -/
def settleTime {E R : Type} (j : Job E R) : Nat := max 1 j.settleAfter

/-- `task.done()` as observed after `k` completed sleep intervals. -/
def taskDone {E R : Type} (j : Job E R) (k : Nat) : Bool :=
  decide (settleTime j ≤ k)

/-- Observable events of the polling loop: a completion check with the value
it observed, a spinner update `spinner_placeholder.text(next(message_cycle))`,
and an `await asyncio.sleep(3)`. -/
inductive PollEvent where
  | check (done : Bool)
  | tick (msg : List Char)
  | sleep
deriving DecidableEq

/-- The ten spinner messages of `cycle_spinner_messages` (src/main.py lines
55-68), cycled by `itertools.cycle`. -/
def spinnerMessages : List (List Char) :=
  [pys ("🎨 Mixing colors..."),
   pys ("✨ Sprinkling creativity dust..."),
   pys ("🖌️ Applying artistic strokes..."),
   pys ("🌈 Infusing with vibrant hues..."),
   pys ("🔍 Focusing on details..."),
   pys ("🖼️ Framing the masterpiece..."),
   pys ("🌟 Adding that special touch..."),
   pys ("🎭 Bringing characters to life..."),
   pys ("🏙️ Building the scene..."),
   pys ("🌅 Setting the perfect mood...")]

/-- The spinner message shown by the `k`-th tick (`next` on the cycle). -/
def msgAt (k : Nat) : List Char := spinnerMessages.getD (k % 10) []

/-- The polling loop `while not task.done(): tick; sleep` then `return await
task`, started after `k` completed sleeps.  The fuel argument bounds the
number of iterations; it is only a termination device — with
`fuel = settleTime j` (as `runWithSpinner` passes) the `0` arm, which repeats
the loop-exit behaviour, is never the reason the loop stops. -/
def runPollAux {E R : Type} (j : Job E R) : Nat → Nat → List PollEvent × Except E R
  | 0, _ => ([PollEvent.check true], j.outcome)
  | fuel + 1, k =>
    if taskDone j k then ([PollEvent.check true], j.outcome)
    else
      let r := runPollAux j fuel (k + 1)
      (PollEvent.check false :: PollEvent.tick (msgAt k) :: PollEvent.sleep :: r.1, r.2)

/-- `run_with_spinner` (src/main.py lines 260-265): the trace of observable
events and the propagated outcome (`return await task` re-raises a failure). -/
def runWithSpinner {E R : Type} (j : Job E R) : List PollEvent × Except E R :=
  runPollAux j (settleTime j) 0

/-- Whether an event is a spinner tick. -/
def isTickEvent : PollEvent → Bool
  | PollEvent.tick _ => true
  | _ => false

/-- Whether an event is a completed sleep interval. -/
def isSleepEvent : PollEvent → Bool
  | PollEvent.sleep => true
  | _ => false

/-- The number of spinner ticks in a trace. -/
def countTicks (l : List PollEvent) : Nat := l.countP isTickEvent

/-- The number of completed sleep intervals in a trace. -/
def countSleeps (l : List PollEvent) : Nat := l.countP isSleepEvent

/-! ## Chat-completion response parsing (src/main.py lines 206-214) -/

/-- The fields the parsing loop can assign: `st.session_state.tuned_prompt`
and the locals `explanation` and `suggestions`.  `none` means the loop never
assigned the field (for the locals this leaves them unbound). -/
structure TunedSections where
  tuned_prompt : Option (List Char)
  explanation : Option (List Char)
  suggestions : Option (List Char)
deriving DecidableEq

/-- The literal prefix `PROMPT:`. -/
def promptPre : List Char := pys ("PROMPT:")

/-- The literal prefix `EXPLANATION:`. -/
def explanationPre : List Char := pys ("EXPLANATION:")

/-- The literal prefix `SUGGESTIONS:`. -/
def suggestionsPre : List Char := pys ("SUGGESTIONS:")

/-- `section.replace(pre, "").strip()` as applied to a matched line. -/
def procField (pre line : List Char) : List Char := pyStrip (pyReplace pre [] line)

/-- One iteration of the `for section in sections` loop (src/main.py lines
208-214). -/
def parseTunedStep (st : TunedSections) (sec : List Char) : TunedSections :=
  if isPre promptPre sec then
    { st with tuned_prompt := some (procField promptPre sec) }
  else if isPre explanationPre sec then
    { st with explanation := some (procField explanationPre sec) }
  else if isPre suggestionsPre sec then
    { st with suggestions := some (procField suggestionsPre sec) }
  else st

/-- The whole parsing pass: `sections = tuned_result.split('\n')` followed by
the assignment loop, starting from no field assigned. -/
def parseTunedResult (text : List Char) : TunedSections :=
  (pySplit '\n' text).foldl parseTunedStep ⟨none, none, none⟩

/-- Modelled from the spec: "the first matching line per prefix" — the first
line of the list starting with `pre`. -/
def firstMatchingLine (pre : List Char) : List (List Char) → Option (List Char)
  | [] => none
  | l :: rest => if isPre pre l then some l else firstMatchingLine pre rest

/-- The last line of the list starting with `pre` (what the source's
assign-on-every-match loop ends up using). -/
def lastMatchingLine (pre : List Char) : List (List Char) → Option (List Char)
  | [] => none
  | l :: rest =>
    match lastMatchingLine pre rest with
    | some r => some r
    | none => if isPre pre l then some l else none

/-- The value a field holds after the loop has scanned `lines`, starting from
the prior value `old`: the processed last matching line, or `old` when no
line matches. -/
def foldFieldValue (pre : List Char) (lines : List (List Char))
    (old : Option (List Char)) : Option (List Char) :=
  match lastMatchingLine pre lines with
  | some l => some (procField pre l)
  | none => old

/-! ## Metadata document re-parsing (spec section 8, round-trip property) -/

/-- The fixed text before the `## Prompt` heading. -/
def promptHeader : List Char := pys ("# Image Generation Results\n\n")

/-- The `## Prompt` heading line, including its newline. -/
def promptMarker : List Char := pys ("## Prompt\n")

/-- The delimiter that closes the prompt section. -/
def genDelim : List Char := pys ("\n\n## Generation Details")

/-- The fixed text between the details heading and the date value. -/
def dateMarker : List Char := pys ("\n- **Date and Time:** ")

/-- The fixed text introducing the model value. -/
def modelMarker : List Char := pys ("\n- **Model:** ")

/-- Modelled from the spec: re-parsing the rendered document by "taking the
text of the Prompt section" — the text between the `## Prompt` heading and
the blank line before `## Generation Details`. -/
def parsePromptField (doc : List Char) : Option (List Char) :=
  match splitOnFirst promptMarker doc with
  | none => none
  | some (_, rest) =>
    match splitOnFirst genDelim rest with
    | none => none
    | some (p, _) => some p

/-- Modelled from the spec: re-parsing the rendered document by taking "the
value of the Model field" — the text between `- **Model:** ` (inside the
Generation Details section) and the end of that line. -/
def parseModelField (doc : List Char) : Option (List Char) :=
  match splitOnFirst promptMarker doc with
  | none => none
  | some (_, rest) =>
    match splitOnFirst genDelim rest with
    | none => none
    | some (_, rest2) =>
      match splitOnFirst modelMarker rest2 with
      | none => none
      | some (_, rest3) =>
        match splitOnFirst (pys ("\n")) rest3 with
        | none => none
        | some (m, _) => some m

/-- Modelled from the spec: the metadata document template of spec section 6,
instantiated with the strings for each placeholder, ending with the image URL
line and its final newline. -/
def metadataTemplateSpec (prompt dateTime model seed nsfw size steps gs st url : List Char) :
    List Char :=
  pys ("# Image Generation Results\n\n## Prompt\n") ++ prompt ++
  pys ("\n\n## Generation Details\n- **Date and Time:** ") ++ dateTime ++
  pys ("\n- **Model:** ") ++ model ++
  pys ("\n- **Seed:** ") ++ seed ++
  pys ("\n- **NSFW Concepts Detected:** ") ++ nsfw ++
  pys ("\n- **Image Size:** ") ++ size ++
  pys ("\n- **Number of Inference Steps:** ") ++ steps ++
  pys ("\n- **Guidance Scale:** ") ++ gs ++
  pys ("\n- **Safety Tolerance:** ") ++ st ++
  pys ("\n\n## Image URL\n") ++ url ++
  pys ("\n")

/-! ## Concrete scenario instances -/

/-- The wall-clock instant `2024-01-02 03:04:00` of the spec scenario. -/
def scenarioNow : PyDateTime := ⟨2024, 1, 2, 3, 4, 0⟩

/-- The empty filesystem. -/
def fs0 : FS := ⟨[], []⟩

/-- The scenario arguments: prompt `"a red fox in snow"`, model
`"fal-ai/flux/schnell"`, result `{images:[{url:"https://x/y.png"}], seed: 42,
has_nsfw_concepts: false}`; the remaining parameters are the app's defaults. -/
def scenarioArgs : ExportArgs :=
  { url := pys ("https://x/y.png")
    prompt := pys ("a red fox in snow")
    result := { images := some [⟨pys ("https://x/y.png")⟩]
                seed := some 42
                has_nsfw_concepts := some false }
    model := pys ("fal-ai/flux/schnell")
    image_size := pys ("square_hd")
    num_inference_steps := 28
    guidance_scale := pys ("3.5")
    safety_tolerance := pys ("2") }

/-- A collaborator environment in which the download succeeds with decodable
bytes, at the scenario instant, with the application directory taken as the
current directory (so paths are of the form `images/...`). -/
def scenarioEnv : ExportEnv :=
  { httpGet := fun _ => ⟨200, [137, 80, 78, 71]⟩
    decode := fun b => some b
    now := scenarioNow
    appDir := [] }

/-- A collaborator environment in which the HTTP GET answers status 404. -/
def env404 : ExportEnv :=
  { httpGet := fun _ => ⟨404, []⟩
    decode := fun _ => none
    now := scenarioNow
    appDir := [] }

/-! ## Helper lemmas: substring search -/

lemma mism_not_isPre : ∀ (pat t : List Char), mism pat t = true →
    ∀ s, isPre pat (t ++ s) = false := by
  intro pat
  induction pat with
  | nil => intro t h _; cases t <;> simp [mism] at h
  | cons p ps ih =>
    intro t h s
    cases t with
    | nil => simp [mism] at h
    | cons c cs =>
      simp only [mism, Bool.or_eq_true, bne_iff_ne] at h
      rcases h with h | h
      · simp [isPre, List.cons_append, h]
      · simp [isPre, List.cons_append, ih cs h]

lemma mism_append : ∀ (pat t u : List Char), mism pat t = true →
    mism pat (t ++ u) = true := by
  intro pat
  induction pat with
  | nil => intro t _ h; cases t <;> simp [mism] at h
  | cons p ps ih =>
    intro t u h
    cases t with
    | nil => simp [mism] at h
    | cons c cs =>
      simp only [mism, Bool.or_eq_true, bne_iff_ne] at h ⊢
      rcases h with h | h
      · exact Or.inl h
      · exact Or.inr (ih cs u h)

lemma isPre_self_append : ∀ (pat y : List Char), isPre pat (pat ++ y) = true := by
  intro pat y
  induction pat with
  | nil => simp [isPre]
  | cons p ps ih => simp [isPre, List.cons_append, ih]

lemma splitOnFirst_at : ∀ (pat y : List Char),
    splitOnFirst pat (pat ++ y) = some ([], y) := by
  intro pat y
  cases pat with
  | nil =>
    cases y with
    | nil => simp [splitOnFirst]
    | cons c rest => simp [splitOnFirst, isPre]
  | cons p ps =>
    show splitOnFirst (p :: ps) (p :: (ps ++ y)) = some ([], y)
    rw [splitOnFirst]
    have h1 : isPre (p :: ps) (p :: ps ++ y) = true := isPre_self_append _ _
    simp only [List.cons_append] at h1
    simp [h1, List.drop_left]

lemma splitOnFirst_skip : ∀ (z : List Char) (pat s : List Char),
    (∀ i, i < z.length → mism pat (z.drop i) = true) →
    splitOnFirst pat (z ++ s) =
      (splitOnFirst pat s).map (fun pr => (z ++ pr.1, pr.2)) := by
  intro z
  induction z with
  | nil =>
    intro pat s _
    cases h : splitOnFirst pat s with
    | none => simp [h]
    | some pr => cases pr; simp [h]
  | cons c z' ih =>
    intro pat s h
    have h0 : mism pat (c :: z') = true := by
      have := h 0 (by simp)
      simpa using this
    have hpre : isPre pat (c :: (z' ++ s)) = false := by
      have := mism_not_isPre pat (c :: z') h0 s
      simpa [List.cons_append] using this
    show splitOnFirst pat (c :: (z' ++ s)) = _
    rw [splitOnFirst, hpre]
    have ih' := ih pat s (fun i hi => by
      have := h (i + 1) (by simpa using Nat.succ_lt_succ hi)
      simpa using this)
    rw [ih']
    cases hs : splitOnFirst pat s with
    | none => simp
    | some pr => cases pr; simp

lemma splitOnFirst_boundary : ∀ (h0 : Char) (pt x y : List Char),
    (∀ c ∈ x, c ≠ h0) →
    splitOnFirst (h0 :: pt) (x ++ ((h0 :: pt) ++ y)) = some (x, y) := by
  intro h0 pt x y hx
  have hz : ∀ i, i < x.length → mism (h0 :: pt) (x.drop i) = true := by
    intro i hi
    cases hd : x.drop i with
    | nil =>
      exfalso
      have : (x.drop i).length = x.length - i := List.length_drop i x
      rw [hd] at this
      simp at this
      omega
    | cons c cs =>
      have hc : c ∈ x := by
        have : c ∈ x.drop i := by rw [hd]; simp
        exact List.drop_subset i x this
      have : c ≠ h0 := hx c hc
      simp only [mism, Bool.or_eq_true, bne_iff_ne]
      exact Or.inl (fun hip => this hip.symm)
  rw [splitOnFirst_skip x (h0 :: pt) ((h0 :: pt) ++ y) hz, splitOnFirst_at]
  simp

/-! ## Helper lemmas: date renderings contain no newline -/

lemma digitChar_digit : ∀ d, digitChar d ∈ pys ("0123456789") := by
  intro d
  unfold digitChar
  repeat first | decide | split

lemma natCharsFuel_digit : ∀ (fuel n : Nat) (c : Char),
    c ∈ natCharsFuel fuel n → c ∈ pys ("0123456789") := by
  intro fuel
  induction fuel with
  | zero => intro n c h; simp [natCharsFuel] at h
  | succ f ih =>
    intro n c h
    unfold natCharsFuel at h
    split at h
    · rcases List.mem_singleton.mp h with rfl
      exact digitChar_digit n
    · rcases List.mem_append.mp h with h | h
      · exact ih _ _ h
      · rcases List.mem_singleton.mp h with rfl
        exact digitChar_digit _

lemma natChars_digit {c : Char} {n : Nat} (h : c ∈ natChars n) :
    c ∈ pys ("0123456789") := natCharsFuel_digit _ _ _ h

lemma nl_not_digit : ('\n') ∉ pys ("0123456789") := by decide

lemma pad2_no_nl (n : Nat) : ('\n') ∉ pad2 n := by
  intro h
  unfold pad2 at h
  split at h
  · rcases List.mem_cons.mp h with h | h
    · exact absurd h (by decide)
    · exact nl_not_digit (natChars_digit h)
  · exact nl_not_digit (natChars_digit h)

lemma pad4_no_nl (n : Nat) : ('\n') ∉ pad4 n := by
  intro h
  unfold pad4 at h
  split at h
  · rcases List.mem_cons.mp h with h | h
    · exact absurd h (by decide)
    rcases List.mem_cons.mp h with h | h
    · exact absurd h (by decide)
    rcases List.mem_cons.mp h with h | h
    · exact absurd h (by decide)
    · exact nl_not_digit (natChars_digit h)
  · split at h
    · rcases List.mem_cons.mp h with h | h
      · exact absurd h (by decide)
      rcases List.mem_cons.mp h with h | h
      · exact absurd h (by decide)
      · exact nl_not_digit (natChars_digit h)
    · split at h
      · rcases List.mem_cons.mp h with h | h
        · exact absurd h (by decide)
        · exact nl_not_digit (natChars_digit h)
      · exact nl_not_digit (natChars_digit h)

lemma fmtDateTime_no_nl (t : PyDateTime) : ('\n') ∉ fmtDateTime t := by
  intro h
  unfold fmtDateTime at h
  simp only [List.mem_append] at h
  rcases h with ((((((((((h | h) | h) | h) | h) | h) | h) | h) | h) | h) | h)
  · exact pad4_no_nl _ h
  · exact absurd h (by decide)
  · exact pad2_no_nl _ h
  · exact absurd h (by decide)
  · exact pad2_no_nl _ h
  · exact absurd h (by decide)
  · exact pad2_no_nl _ h
  · exact absurd h (by decide)
  · exact pad2_no_nl _ h
  · exact absurd h (by decide)
  · exact pad2_no_nl _ h

/-! ## Helper lemmas: the polling loop -/

lemma runPollAux_snd {E R : Type} (j : Job E R) :
    ∀ fuel k, (runPollAux j fuel k).2 = j.outcome := by
  intro fuel
  induction fuel with
  | zero => intro k; rfl
  | succ f ih =>
    intro k
    unfold runPollAux
    split
    · rfl
    · simpa using ih (k + 1)

lemma runPollAux_ticks {E R : Type} (j : Job E R) :
    ∀ fuel k, settleTime j ≤ k + fuel →
      countTicks (runPollAux j fuel k).1 = settleTime j - k := by
  intro fuel
  induction fuel with
  | zero =>
    intro k h
    show countTicks [PollEvent.check true] = _
    simp [countTicks, isTickEvent]
    omega
  | succ f ih =>
    intro k h
    by_cases hk : settleTime j ≤ k
    · have hd : taskDone j k = true := by simp [taskDone, hk]
      unfold runPollAux
      rw [if_pos hd]
      simp [countTicks, isTickEvent]
      omega
    · have hd : taskDone j k = false := by simp [taskDone]; omega
      unfold runPollAux
      rw [hd]
      simp only [Bool.false_eq_true, if_false]
      have hrec := ih (k + 1) (by omega)
      simp only [countTicks, List.countP_cons] at hrec ⊢
      simp [isTickEvent, hrec]
      omega

lemma runPollAux_tick_pos {E R : Type} (j : Job E R) :
    ∀ fuel k i m,
      ((runPollAux j fuel k).1)[i]? = some (PollEvent.tick m) →
      ((runPollAux j fuel k).1)[i - 1]? = some (PollEvent.check false) ∧
      countSleeps (((runPollAux j fuel k).1).take i) + k < settleTime j := by
  intro fuel
  induction fuel with
  | zero =>
    intro k i m h
    exfalso
    rcases i with _ | i <;> simp [runPollAux] at h
  | succ f ih =>
    intro k i m h
    by_cases hk : settleTime j ≤ k
    · exfalso
      have hd : taskDone j k = true := by simp [taskDone, hk]
      unfold runPollAux at h
      rw [if_pos hd] at h
      rcases i with _ | i <;> simp at h
    · have hd : taskDone j k = false := by simp [taskDone]; omega
      unfold runPollAux
      unfold runPollAux at h
      rw [hd] at h ⊢
      simp only [Bool.false_eq_true, if_false] at h ⊢
      rcases i with _ | _ | _ | i
      · simp at h
      · refine ⟨by simp, ?_⟩
        simp [countSleeps, isSleepEvent]
        omega
      · simp at h
      · have h' : ((runPollAux j f (k + 1)).1)[i]? = some (PollEvent.tick m) := by
          simpa using h
        obtain ⟨h1, h2⟩ := ih (k + 1) i m h'
        rcases i with _ | i
        · exfalso
          simp at h1
          rw [h1] at h'
          simp at h'
        · refine ⟨by simpa using h1, ?_⟩
          have htake : (PollEvent.check false :: PollEvent.tick (msgAt k) ::
              PollEvent.sleep :: (runPollAux j f (k + 1)).1).take (i + 1 + 3) =
              PollEvent.check false :: PollEvent.tick (msgAt k) ::
              PollEvent.sleep :: ((runPollAux j f (k + 1)).1).take (i + 1) := by
            simp [List.take_succ_cons]
          simp only [htake]
          simp only [countSleeps, List.countP_cons] at h2 ⊢
          simp [isSleepEvent] at h2 ⊢
          omega

/-- C4: for every job, once the job settles the runner stops polling (the
trace is finite, with exactly one tick per polling round up to the settling
round) and propagates the job's outcome — the `GenerationResult` on success
and the re-raised failure on failure; the runner imposes no timeout of its
own: the statement holds for jobs with arbitrarily large settling times. -/
theorem C4_runner_propagates_outcome {E R : Type} (j : Job E R) :
    (runWithSpinner j).2 = j.outcome ∧
    countTicks (runWithSpinner j).1 = settleTime j := by
  constructor
  · exact runPollAux_snd j _ 0
  · have h := runPollAux_ticks j (settleTime j) 0 (by omega)
    simpa using h

/-- C5: every tick in the runner's trace is immediately preceded by a
completion check that observed the job as not yet done, and occurs strictly
before the job has settled (fewer completed sleep intervals than the job's
settling time precede it). -/
theorem C5_no_tick_after_settled {E R : Type} (j : Job E R) (i : Nat) (m : List Char)
    (h : ((runWithSpinner j).1)[i]? = some (PollEvent.tick m)) :
    ((runWithSpinner j).1)[i - 1]? = some (PollEvent.check false) ∧
    countSleeps (((runWithSpinner j).1).take i) < settleTime j := by
  have hp := runPollAux_tick_pos j (settleTime j) 0 i m h
  simpa using hp

/-- Witness for C5 at a concrete job that settles after one sleep interval:
its trace has a tick at position 1, preceded by a check that observed
not-done, with no completed sleep before it. -/
theorem C5_no_tick_after_settled_witness :
    ((runWithSpinner (⟨1, Except.ok ()⟩ : Job Unit Unit)).1)[1 - 1]? =
      some (PollEvent.check false) ∧
    countSleeps (((runWithSpinner (⟨1, Except.ok ()⟩ : Job Unit Unit)).1).take 1) <
      settleTime (⟨1, Except.ok ()⟩ : Job Unit Unit) :=
  C5_no_tick_after_settled (⟨1, Except.ok ()⟩ : Job Unit Unit) 1 (msgAt 0) (by decide)

/-- C10: for every job — even one that would resolve immediately — the first
completion check observes the job as not done (the task has not yet been
given control), so the runner always ticks at least once and suspends for at
least one full sleep interval before returning. -/
theorem C10_at_least_one_tick {E R : Type} (j : Job E R) :
    ((runWithSpinner j).1)[0]? = some (PollEvent.check false) ∧
    1 ≤ countTicks (runWithSpinner j).1 ∧
    1 ≤ countSleeps (runWithSpinner j).1 := by
  have h2 : 1 ≤ settleTime j := Nat.le_max_left 1 j.settleAfter
  have hd : taskDone j 0 = false := by
    simp only [taskDone, decide_eq_false_iff_not]
    omega
  obtain ⟨f, hf⟩ : ∃ f, settleTime j = f + 1 := ⟨settleTime j - 1, by omega⟩
  unfold runWithSpinner
  rw [hf]
  unfold runPollAux
  rw [hd]
  simp only [Bool.false_eq_true, if_false]
  refine ⟨rfl, ?_, ?_⟩
  · simp only [countTicks, List.countP_cons]
    simp [isTickEvent]
  · simp only [countSleeps, List.countP_cons]
    simp [isSleepEvent]

/-! ## Helper lemmas: the chat-response parsing loop -/

lemma isPre_excl {a b : Char} {as bs l : List Char} (hab : a ≠ b)
    (h : isPre (a :: as) l = true) : isPre (b :: bs) l = false := by
  cases l with
  | nil => simp [isPre] at h
  | cons c cs =>
    simp only [isPre, Bool.and_eq_true, beq_iff_eq] at h
    obtain ⟨rfl, -⟩ := h
    simp only [isPre, Bool.and_eq_false_iff]
    exact Or.inl (by simp [bne_iff_ne]; exact fun hba => hab hba.symm)

lemma promptPre_cons : promptPre = 'P' :: pys ("ROMPT:") := rfl

lemma explanationPre_cons : explanationPre = 'E' :: pys ("XPLANATION:") := rfl

lemma suggestionsPre_cons : suggestionsPre = 'S' :: pys ("UGGESTIONS:") := rfl

lemma prompt_not_explanation {l : List Char} (h : isPre promptPre l = true) :
    isPre explanationPre l = false := by
  rw [promptPre_cons] at h
  rw [explanationPre_cons]
  exact isPre_excl (by decide) h

lemma prompt_not_suggestions {l : List Char} (h : isPre promptPre l = true) :
    isPre suggestionsPre l = false := by
  rw [promptPre_cons] at h
  rw [suggestionsPre_cons]
  exact isPre_excl (by decide) h

lemma explanation_not_suggestions {l : List Char} (h : isPre explanationPre l = true) :
    isPre suggestionsPre l = false := by
  rw [explanationPre_cons] at h
  rw [suggestionsPre_cons]
  exact isPre_excl (by decide) h

lemma parseTunedStep_tp (st : TunedSections) (sec : List Char) :
    (parseTunedStep st sec).tuned_prompt =
      if isPre promptPre sec then some (procField promptPre sec)
      else st.tuned_prompt := by
  unfold parseTunedStep
  by_cases hP : isPre promptPre sec = true
  · simp [hP]
  · simp only [Bool.not_eq_true] at hP
    simp only [hP, Bool.false_eq_true, if_false]
    split
    · rfl
    · split <;> rfl

lemma parseTunedStep_ex (st : TunedSections) (sec : List Char) :
    (parseTunedStep st sec).explanation =
      if isPre explanationPre sec then some (procField explanationPre sec)
      else st.explanation := by
  unfold parseTunedStep
  by_cases hP : isPre promptPre sec = true
  · have hE := prompt_not_explanation hP
    simp [hP, hE]
  · simp only [Bool.not_eq_true] at hP
    simp only [hP, Bool.false_eq_true, if_false]
    by_cases hE : isPre explanationPre sec = true
    · simp [hE]
    · simp only [Bool.not_eq_true] at hE
      simp only [hE, Bool.false_eq_true, if_false]
      split <;> rfl

lemma parseTunedStep_sg (st : TunedSections) (sec : List Char) :
    (parseTunedStep st sec).suggestions =
      if isPre suggestionsPre sec then some (procField suggestionsPre sec)
      else st.suggestions := by
  unfold parseTunedStep
  by_cases hP : isPre promptPre sec = true
  · have hS := prompt_not_suggestions hP
    simp [hP, hS]
  · simp only [Bool.not_eq_true] at hP
    simp only [hP, Bool.false_eq_true, if_false]
    by_cases hE : isPre explanationPre sec = true
    · have hS := explanation_not_suggestions hE
      simp [hE, hS]
    · simp only [Bool.not_eq_true] at hE
      simp only [hE, Bool.false_eq_true, if_false]
      split <;> rfl

lemma lastMatchingLine_cons (pre l : List Char) (rest : List (List Char)) :
    lastMatchingLine pre (l :: rest) =
      match lastMatchingLine pre rest with
      | some r => some r
      | none => if isPre pre l then some l else none := rfl

lemma foldFieldValue_step (pre : List Char) (l : List Char) (rest : List (List Char))
    (old : Option (List Char)) :
    foldFieldValue pre (l :: rest)
        old =
      foldFieldValue pre rest
        (if isPre pre l then some (procField pre l) else old) := by
  unfold foldFieldValue
  rw [lastMatchingLine_cons]
  cases h : lastMatchingLine pre rest with
  | some r => simp [h]
  | none =>
    simp only [h]
    by_cases hp : isPre pre l = true
    · simp [hp]
    · simp only [Bool.not_eq_true] at hp
      simp [hp]

lemma parse_foldl : ∀ (lines : List (List Char)) (st : TunedSections),
    lines.foldl parseTunedStep st =
      ⟨foldFieldValue promptPre lines st.tuned_prompt,
       foldFieldValue explanationPre lines st.explanation,
       foldFieldValue suggestionsPre lines st.suggestions⟩ := by
  intro lines
  induction lines with
  | nil => intro st; simp [foldFieldValue, lastMatchingLine]
  | cons l rest ih =>
    intro st
    rw [List.foldl_cons, ih]
    rw [foldFieldValue_step, foldFieldValue_step, foldFieldValue_step]
    rw [parseTunedStep_tp, parseTunedStep_ex, parseTunedStep_sg]

lemma foldFieldValue_none (pre : List Char) (lines : List (List Char)) :
    foldFieldValue pre lines none = (lastMatchingLine pre lines).map (procField pre) := by
  unfold foldFieldValue
  cases h : lastMatchingLine pre lines <;> simp [h]

/-- C6 (counterexample to the claim as stated): on the response
`"PROMPT: a\nPROMPT: b"` the consumer's loop ends up with `"b"`, the value of
the last matching line, while the first matching line would give `"a"`;
moreover the missing `EXPLANATION:`/`SUGGESTIONS:` sections leave those
fields unassigned (`none`), not empty. -/
theorem C6_counterexample :
    parseTunedResult (pys ("PROMPT: a\nPROMPT: b")) =
      ⟨some (pys ("b")), none, none⟩ ∧
    (firstMatchingLine promptPre (pySplit '\n' (pys ("PROMPT: a\nPROMPT: b")))).map
        (procField promptPre) = some (pys ("a")) ∧
    pys ("b") ≠ pys ("a") := by decide

/-- C6 (amended): for every chat-completion response text, the consumer
splits the text on newlines and, for each of the literal prefixes `PROMPT:`,
`EXPLANATION:`, `SUGGESTIONS:`, uses the last matching line (prefix removed
everywhere in the line, then stripped), ignoring lines that match no prefix;
the parsing loop itself never fails — when a prefix has no matching line the
corresponding field is simply left unassigned (`none`). -/
theorem C6_parse_uses_last_match (text : List Char) :
    parseTunedResult text =
      ⟨(lastMatchingLine promptPre (pySplit '\n' text)).map (procField promptPre),
       (lastMatchingLine explanationPre (pySplit '\n' text)).map (procField explanationPre),
       (lastMatchingLine suggestionsPre (pySplit '\n' text)).map (procField suggestionsPre)⟩ := by
  unfold parseTunedResult
  rw [parse_foldl, foldFieldValue_none, foldFieldValue_none, foldFieldValue_none]

/-! ## Helper lemmas: the export routine -/

lemma getsize_after_write (fs : FS) (p : List Char) (md : List Char) :
    pyGetsize (writeFS p (FileContent.text md) fs) p = md.length := by
  simp [pyGetsize, writeFS, lookupFS, sizeOfContent]

lemma format_markdown_ne_nil (prompt : List Char) (result : GenerationResult)
    (model image_size : List Char) (steps : Nat) (gs st : List Char) (now : PyDateTime) :
    format_markdown prompt result model image_size steps gs st now ≠ [] := by
  intro h
  have hlen := congrArg List.length h
  simp only [format_markdown, List.length_append, List.length_nil] at hlen
  have h38 : (pys ("# Image Generation Results\n\n## Prompt\n")).length = 38 := by decide
  rw [h38] at hlen
  omega

lemma append_right_ne (a : List Char) {x y : List Char} (h : x ≠ y) :
    a ++ x ≠ a ++ y := by
  intro hc
  exact h (List.append_cancel_left hc)

lemma pyPathJoin_ne_of_ne (folder : List Char) {x y : List Char} (h : x ≠ y) :
    pyPathJoin folder x ≠ pyPathJoin folder y := by
  unfold pyPathJoin
  split
  · exact h
  · split
    · exact append_right_ne _ h
    · exact append_right_ne _ h

lemma png_ne_md (base : List Char) :
    base ++ pys (".png") ≠ base ++ pys (".md") :=
  append_right_ne base (by decide)

lemma try_ok_inv (env : ExportEnv) (a : ExportArgs) (fs : FS) (p m : List Char) (fs' : FS)
    (h : save_image_and_markdown_try env a fs = (Except.ok (p, m), fs')) :
    lookupFS fs'.files p ≠ none ∧ lookupFS fs'.files m ≠ none := by
  unfold save_image_and_markdown_try at h
  by_cases hs : (env.httpGet a.url).status_code = 200
  · rw [if_pos hs] at h
    cases hd : env.decode (env.httpGet a.url).content with
    | none => rw [hd] at h; simp at h
    | some image =>
      rw [hd] at h
      have hmdne : (format_markdown a.prompt a.result a.model a.image_size
          a.num_inference_steps a.guidance_scale a.safety_tolerance env.now).length ≠ 0 := by
        intro hz
        exact format_markdown_ne_nil a.prompt a.result a.model a.image_size
          a.num_inference_steps a.guidance_scale a.safety_tolerance env.now
          (List.length_eq_zero.mp hz)
      simp only [getsize_after_write] at h
      rw [if_neg hmdne] at h
      have h1 := congrArg Prod.fst h
      have h2 := congrArg Prod.snd h
      simp only at h1 h2
      obtain ⟨rfl, rfl⟩ : pyPathJoin (pyPathJoin env.appDir (pys ("images")))
            (fmtTimestampMinute env.now ++ pys ("_") ++ pySanitizePrompt a.prompt ++ pys (".png")) = p ∧
          pyPathJoin (pyPathJoin env.appDir (pys ("images")))
            (fmtTimestampMinute env.now ++ pys ("_") ++ pySanitizePrompt a.prompt ++ pys (".md")) = m := by
        have hok := Except.ok.inj h1
        exact ⟨congrArg Prod.fst hok, congrArg Prod.snd hok⟩
      subst h2
      constructor
      · simp only [writeFS, mkdirFS, lookupFS]
        rw [if_neg (pyPathJoin_ne_of_ne _ (png_ne_md _)).symm]
        · simp
      · simp [writeFS, lookupFS]
  · rw [if_neg hs] at h
    simp at h

/-- C1 (counterexample to the claim as stated): when the HTTP GET answers
status 404, the `try` block does raise the download error with the status
code, but `save_image_and_markdown` catches it and returns the normal value
`(None, None)` to its caller (leaving the filesystem untouched) — the export
routine does not fail with an `ExportError`. -/
theorem C1_counterexample :
    save_image_and_markdown_try env404 scenarioArgs fs0 =
      (Except.error (ExportError.DownloadFailed 404), fs0) ∧
    save_image_and_markdown env404 scenarioArgs fs0 =
      ((none, none), fs0, some (ExportError.DownloadFailed 404)) := by
  constructor
  · rfl
  · rfl

/-- C1 (amended): on any step failure the export routine internally raises an
error identifying the step — `DownloadFailed` carrying the status code when
the HTTP GET returns a non-success status (in particular 404),
`DecodeFailed` when the downloaded bytes cannot be decoded, `EmptyMetadata`
when the metadata file is empty after the write — but catches it and returns
`(None, None)` instead of propagating it; when the download or the decode
fails, no files are created on disk (and otherwise both files are written
and both paths returned; the empty-metadata check never fires because the
written file's size equals the document's nonzero length). -/
theorem C1_export_error_handling (env : ExportEnv) (a : ExportArgs) (fs : FS) :
    save_image_and_markdown env a fs = exportOutcomeSpec env a fs := by
  unfold save_image_and_markdown save_image_and_markdown_try exportOutcomeSpec
  by_cases hs : (env.httpGet a.url).status_code = 200
  · rw [if_pos hs, if_pos hs]
    cases hd : env.decode (env.httpGet a.url).content with
    | none => rfl
    | some image =>
      have hmdne : (format_markdown a.prompt a.result a.model a.image_size
          a.num_inference_steps a.guidance_scale a.safety_tolerance env.now).length ≠ 0 := by
        intro hz
        exact format_markdown_ne_nil a.prompt a.result a.model a.image_size
          a.num_inference_steps a.guidance_scale a.safety_tolerance env.now
          (List.length_eq_zero.mp hz)
      simp only [getsize_after_write]
      rw [if_neg hmdne]
  · rw [if_neg hs, if_neg hs]

/-- C9: `save_image_and_markdown` never propagates an exception to its
caller: whenever the `try` block raises, the error is caught and the function
returns `(None, None)` (with the error printed), and on success it returns
the two paths of the files that are then present on disk. -/
theorem C9_export_never_raises (env : ExportEnv) (a : ExportArgs) (fs : FS) :
    (∃ e, (save_image_and_markdown_try env a fs).1 = Except.error e ∧
      (save_image_and_markdown env a fs).1 = (none, none) ∧
      (save_image_and_markdown env a fs).2.2 = some e) ∨
    (∃ p m, (save_image_and_markdown_try env a fs).1 = Except.ok (p, m) ∧
      (save_image_and_markdown env a fs).1 = (some p, some m) ∧
      lookupFS (save_image_and_markdown env a fs).2.1.files p ≠ none ∧
      lookupFS (save_image_and_markdown env a fs).2.1.files m ≠ none) := by
  rcases htry : save_image_and_markdown_try env a fs with ⟨r, fs'⟩
  cases r with
  | error e =>
    left
    refine ⟨e, ?_, ?_, ?_⟩ <;> simp [save_image_and_markdown, htry]
  | ok pm =>
    rcases pm with ⟨p, m⟩
    right
    have hfiles := try_ok_inv env a fs p m fs' htry
    refine ⟨p, m, ?_, ?_, ?_, ?_⟩ <;>
      simp [save_image_and_markdown, htry, hfiles.1, hfiles.2]

set_option maxRecDepth 100000 in
/-- C7: in the concrete scenario (prompt `"a red fox in snow"`, model
`"fal-ai/flux/schnell"`, result with one image URL `https://x/y.png`, seed
42, NSFW flag false, at wall-clock time 2024-01-02 03:04:00) the export
writes the image to `images/2024-01-02-0304_a red fox in snow.png`, writes
the metadata next to it, and the metadata document contains the line
`- **Seed:** 42` and the section `## Image URL` followed by
`https://x/y.png`. -/
theorem C7_scenario :
    (save_image_and_markdown scenarioEnv scenarioArgs fs0).1 =
      (some (pys ("images/2024-01-02-0304_a red fox in snow.png")),
       some (pys ("images/2024-01-02-0304_a red fox in snow.md"))) ∧
    lookupFS (save_image_and_markdown scenarioEnv scenarioArgs fs0).2.1.files
        (pys ("images/2024-01-02-0304_a red fox in snow.png")) =
      some (FileContent.image [137, 80, 78, 71]) ∧
    lookupFS (save_image_and_markdown scenarioEnv scenarioArgs fs0).2.1.files
        (pys ("images/2024-01-02-0304_a red fox in snow.md")) =
      some (FileContent.text (format_markdown (pys ("a red fox in snow"))
        scenarioArgs.result (pys ("fal-ai/flux/schnell")) (pys ("square_hd")) 28
        (pys ("3.5")) (pys ("2")) scenarioNow)) ∧
    containsSub (pys ("\n- **Seed:** 42\n"))
      (format_markdown (pys ("a red fox in snow")) scenarioArgs.result
        (pys ("fal-ai/flux/schnell")) (pys ("square_hd")) 28
        (pys ("3.5")) (pys ("2")) scenarioNow) = true ∧
    containsSub (pys ("## Image URL\nhttps://x/y.png"))
      (format_markdown (pys ("a red fox in snow")) scenarioArgs.result
        (pys ("fal-ai/flux/schnell")) (pys ("square_hd")) 28
        (pys ("3.5")) (pys ("2")) scenarioNow) = true := by
  refine ⟨by decide, by decide, by decide, by decide, by decide⟩

/-! ## Helper lemmas: prompt sanitization -/

lemma dropWhile_idem (q : Char → Bool) : ∀ l : List Char,
    (l.dropWhile q).dropWhile q = l.dropWhile q := by
  intro l
  induction l with
  | nil => rfl
  | cons c t ih =>
    by_cases hq : q c = true
    · simp [List.dropWhile_cons, hq, ih]
    · simp [List.dropWhile_cons, hq]

lemma pyRstrip_idem (s : List Char) : pyRstrip (pyRstrip s) = pyRstrip s := by
  unfold pyRstrip
  rw [List.reverse_reverse, dropWhile_idem]

lemma mem_pyRstrip {c : Char} {s : List Char} (h : c ∈ pyRstrip s) : c ∈ s := by
  unfold pyRstrip at h
  rw [List.mem_reverse] at h
  have := List.dropWhile_sublist (l := s.reverse) (p := pyIsSpace)
  have hm := this.subset h
  rwa [List.mem_reverse] at hm

lemma pyIsAlnum_ascii {c : Char} (h : c.toNat < 128) :
    pyIsAlnum c = c.isAlphanum := by
  by_cases ha : c.isAlphanum = true
  · simp [pyIsAlnum, ha]
  · simp only [Bool.not_eq_true] at ha
    unfold pyIsAlnum
    rw [ha]
    simp only [Bool.false_eq_true, if_false]
    rw [if_neg (by omega), if_neg (by omega)]

set_option maxRecDepth 100000 in
/-- C2 (counterexample to the claim as stated): the prompt consisting of `é`,
48 letters `a` and the two characters `" b"` sanitizes — under Python's
Unicode-aware `isalnum` and the source's rstrip-before-truncate order — to a
50-character string that contains `é` (outside {A-Z, a-z, 0-9, space, `-`,
`_`}) and ends in a space, so neither the claimed character-set invariant nor
the claimed absence of trailing whitespace holds. -/
theorem C2_counterexample :
    (pySanitizePrompt ('é' :: (List.replicate 48 'a' ++ [' ', 'b']))).all
        (fun c => c.isAlphanum || c == ' ' || c == '-' || c == '_') = false ∧
    (pySanitizePrompt ('é' :: (List.replicate 48 'a' ++ [' ', 'b']))).getLast? =
      some (' ') := by
  refine ⟨by decide, by decide⟩

/-- C2 (amended): for every input string of ASCII characters, the sanitized
prompt contains only characters from {A-Z, a-z, 0-9, space, hyphen,
underscore} and has length at most 50; sanitization removes every character
outside that set, trims trailing whitespace, and then truncates to at most 50
characters, so the result is guaranteed to have no trailing whitespace only
when truncation did not cut it short (length below 50). -/
theorem C2_sanitize_charset (p : List Char) (h : ∀ c ∈ p, c.toNat < 128) :
    (pySanitizePrompt p).all
        (fun c => c.isAlphanum || c == ' ' || c == '-' || c == '_') = true ∧
    (pySanitizePrompt p).length ≤ 50 ∧
    ((pySanitizePrompt p).length < 50 →
      pyRstrip (pySanitizePrompt p) = pySanitizePrompt p) := by
  refine ⟨?_, ?_, ?_⟩
  · rw [List.all_eq_true]
    intro c hc
    have hc1 : c ∈ pyRstrip (p.filter fun c => pyIsAlnum c || c == ' ' || c == '-' || c == '_') :=
      List.take_subset _ _ hc
    have hc2 := mem_pyRstrip hc1
    rw [List.mem_filter] at hc2
    obtain ⟨hcp, hck⟩ := hc2
    rw [pyIsAlnum_ascii (h c hcp)] at hck
    exact hck
  · unfold pySanitizePrompt
    simp [List.length_take]
  · intro hlt
    unfold pySanitizePrompt at hlt ⊢
    rw [List.length_take] at hlt
    have hle : (pyRstrip (p.filter fun c => pyIsAlnum c || c == ' ' || c == '-' || c == '_')).length ≤ 50 := by
      omega
    rw [List.take_of_length_le hle, pyRstrip_idem]

/-- Witness for the amended C2 at the concrete ASCII prompt `"a b!"`: the
sanitized prompt `"a b"` satisfies the character-set invariant, is at most 50
characters long, and (its length being below 50) has no trailing
whitespace. -/
theorem C2_sanitize_charset_witness :
    (pySanitizePrompt (pys ("a b!"))).all
        (fun c => c.isAlphanum || c == ' ' || c == '-' || c == '_') = true ∧
    (pySanitizePrompt (pys ("a b!"))).length ≤ 50 ∧
    pyRstrip (pySanitizePrompt (pys ("a b!"))) = pySanitizePrompt (pys ("a b!")) := by
  have h := C2_sanitize_charset (pys ("a b!")) (by decide)
  exact ⟨h.1, h.2.1, h.2.2 (by decide)⟩

/-- C3: for every generation result (and prompt, model, parameters, instant),
the rendered metadata document is exactly the spec's template instantiated
with the original prompt, the current timestamp, the model identifier, the
seed rendering, the NSFW-flag rendering, image size, inference step count,
guidance scale, safety tolerance and the image-URL rendering (the document
carries one extra blank line after the template's final URL line); the seed
and NSFW renderings are the sentinel `Not specified` when the field is
absent, and the Image URL section reads exactly `No image URL available`
when the images sequence is empty or missing. -/
theorem C3_metadata_template (prompt : List Char) (result : GenerationResult)
    (model image_size : List Char) (steps : Nat) (gs st : List Char)
    (now : PyDateTime) :
    format_markdown prompt result model image_size steps gs st now =
      metadataTemplateSpec prompt (fmtDateTime now) model (seedStr result.seed)
        (nsfwStr result.has_nsfw_concepts) image_size (natChars steps) gs st
        (imageUrlStr result.images) ++ pys ("\n") ∧
    imageUrlStr (some []) = pys ("No image URL available") ∧
    imageUrlStr none = pys ("No image URL available") ∧
    seedStr none = pys ("Not specified") ∧
    nsfwStr none = pys ("Not specified") := by
  refine ⟨?_, rfl, rfl, rfl, rfl⟩
  unfold format_markdown metadataTemplateSpec
  simp only [List.append_assoc]
  rfl

/-! ## Helper lemmas: metadata document re-parsing -/

lemma mism_head_ne {h0 : Char} {pt : List Char} {c : Char} {cs : List Char}
    (h : c ≠ h0) : mism (h0 :: pt) (c :: cs) = true := by
  simp only [mism, Bool.or_eq_true, bne_iff_ne]
  exact Or.inl (fun he => h he.symm)

lemma splitOnFirst_skip_block (h0 : Char) (pt z1 dt y : List Char)
    (hz1 : ∀ i, i < z1.length → mism (h0 :: pt) (z1.drop i) = true)
    (hdt : ∀ c ∈ dt, c ≠ h0) :
    splitOnFirst (h0 :: pt) ((z1 ++ dt) ++ ((h0 :: pt) ++ y)) = some (z1 ++ dt, y) := by
  have hz : ∀ i, i < (z1 ++ dt).length → mism (h0 :: pt) ((z1 ++ dt).drop i) = true := by
    intro i hi
    by_cases hcase : i < z1.length
    · rw [List.drop_append_of_le_length (Nat.le_of_lt hcase)]
      exact mism_append _ _ _ (hz1 i hcase)
    · rw [List.length_append] at hi
      obtain ⟨j, rfl⟩ : ∃ j, i = z1.length + j := ⟨i - z1.length, by omega⟩
      rw [List.drop_append]
      have hj : j < dt.length := by omega
      cases hd : dt.drop j with
      | nil =>
        exfalso
        have := List.length_drop j dt
        rw [hd] at this
        simp at this
        omega
      | cons c cs =>
        have hc : c ∈ dt := List.drop_subset j dt (by rw [hd]; simp)
        exact mism_head_ne (hdt c hc)
  rw [splitOnFirst_skip (z1 ++ dt) (h0 :: pt) ((h0 :: pt) ++ y) hz, splitOnFirst_at]
  simp

lemma split_promptMarker (tail : List Char) :
    splitOnFirst promptMarker (promptHeader ++ (promptMarker ++ tail)) =
      some (promptHeader, tail) := by
  have hz : ∀ i, i < promptHeader.length → mism promptMarker (promptHeader.drop i) = true := by
    decide
  rw [splitOnFirst_skip promptHeader promptMarker (promptMarker ++ tail) hz, splitOnFirst_at]
  simp

lemma genDelim_cons : genDelim = '\n' :: pys ("\n## Generation Details") := rfl

lemma modelMarker_cons : modelMarker = '\n' :: pys ("- **Model:** ") := rfl

lemma nl_singleton : pys ("\n") = '\n' :: ([] : List Char) := rfl

set_option maxRecDepth 100000 in
lemma format_markdown_decomp (prompt : List Char) (result : GenerationResult)
    (model image_size : List Char) (steps : Nat) (gs st : List Char)
    (now : PyDateTime) :
    format_markdown prompt result model image_size steps gs st now =
      promptHeader ++ (promptMarker ++ (prompt ++ (genDelim ++ (dateMarker ++
      (fmtDateTime now ++ (modelMarker ++ (model ++ (pys ("\n") ++
      (pys ("- **Seed:** ") ++ (seedStr result.seed ++
      (pys ("\n- **NSFW Concepts Detected:** ") ++ (nsfwStr result.has_nsfw_concepts ++
      (pys ("\n- **Image Size:** ") ++ (image_size ++
      (pys ("\n- **Number of Inference Steps:** ") ++ (natChars steps ++
      (pys ("\n- **Guidance Scale:** ") ++ (gs ++
      (pys ("\n- **Safety Tolerance:** ") ++ (st ++
      (pys ("\n\n## Image URL\n") ++ (imageUrlStr result.images ++
      pys ("\n\n"))))))))))))))))))))))) := by
  unfold format_markdown
  simp only [List.append_assoc]
  rfl

set_option maxRecDepth 100000 in
/-- C8 (counterexample to the claim as stated): rendering is not injective in
(prompt, model) — a multi-line prompt/model pair can smuggle the template's
own delimiters, so two different (prompt, model) pairs render to the very
same document and no re-parsing can recover both; the claim fails for
prompts/models containing newlines. -/
theorem C8_counterexample :
    format_markdown (pys ("a")) scenarioArgs.result
        (pys ("b\n\n## Generation Details\n- **Date and Time:** 2024-01-02 03:04:00\n- **Model:** c"))
        (pys ("square_hd")) 28 (pys ("3.5")) (pys ("2")) scenarioNow =
      format_markdown
        (pys ("a\n\n## Generation Details\n- **Date and Time:** 2024-01-02 03:04:00\n- **Model:** b"))
        scenarioArgs.result (pys ("c"))
        (pys ("square_hd")) 28 (pys ("3.5")) (pys ("2")) scenarioNow ∧
    ¬ (pys ("a") =
        pys ("a\n\n## Generation Details\n- **Date and Time:** 2024-01-02 03:04:00\n- **Model:** b") ∧
       pys ("b\n\n## Generation Details\n- **Date and Time:** 2024-01-02 03:04:00\n- **Model:** c") =
        pys ("c")) := by
  refine ⟨by decide, by decide⟩

/-- C8 (amended): for every single-line prompt and model identifier (no
newline in either — which is what the app's one-line text input produces),
rendering the metadata document and then re-parsing it, taking the text of
the Prompt section and the value of the Model field, recovers the exact
prompt text and the exact model identifier. -/
theorem C8_roundtrip_single_line (prompt model : List Char)
    (result : GenerationResult) (image_size : List Char) (steps : Nat)
    (gs st : List Char) (now : PyDateTime)
    (hP : ('\n') ∉ prompt) (hM : ('\n') ∉ model) :
    parsePromptField (format_markdown prompt result model image_size steps gs st now) =
      some prompt ∧
    parseModelField (format_markdown prompt result model image_size steps gs st now) =
      some model := by
  obtain ⟨T4, hdoc⟩ : ∃ T4,
      format_markdown prompt result model image_size steps gs st now =
        promptHeader ++ (promptMarker ++ (prompt ++ (genDelim ++ (dateMarker ++
        (fmtDateTime now ++ (modelMarker ++ (model ++ (pys ("\n") ++ T4)))))))) :=
    ⟨_, format_markdown_decomp prompt result model image_size steps gs st now⟩
  have hx : ∀ c ∈ prompt, c ≠ '\n' := fun c hc he => hP (he ▸ hc)
  have hxm : ∀ c ∈ model, c ≠ '\n' := fun c hc he => hM (he ▸ hc)
  have hb2 : splitOnFirst genDelim (prompt ++ (genDelim ++ (dateMarker ++
      (fmtDateTime now ++ (modelMarker ++ (model ++ (pys ("\n") ++ T4))))))) =
      some (prompt, dateMarker ++ (fmtDateTime now ++ (modelMarker ++
        (model ++ (pys ("\n") ++ T4))))) := by
    rw [genDelim_cons]
    exact splitOnFirst_boundary '\n' (pys ("\n## Generation Details")) prompt _ hx
  have hre : dateMarker ++ (fmtDateTime now ++ (modelMarker ++ (model ++ (pys ("\n") ++ T4)))) =
      (dateMarker ++ fmtDateTime now) ++ (modelMarker ++ (model ++ (pys ("\n") ++ T4))) := by
    rw [List.append_assoc]
  have hb3 : splitOnFirst modelMarker (dateMarker ++ (fmtDateTime now ++ (modelMarker ++
      (model ++ (pys ("\n") ++ T4))))) =
      some (dateMarker ++ fmtDateTime now, model ++ (pys ("\n") ++ T4)) := by
    rw [hre, modelMarker_cons]
    exact splitOnFirst_skip_block '\n' (pys ("- **Model:** ")) dateMarker (fmtDateTime now) _
      (by decide) (fun c hc he => fmtDateTime_no_nl now (he ▸ hc))
  have hb4 : splitOnFirst (pys ("\n")) (model ++ (pys ("\n") ++ T4)) = some (model, T4) := by
    rw [nl_singleton]
    exact splitOnFirst_boundary '\n' [] model T4 hxm
  constructor
  · simp only [parsePromptField, hdoc, split_promptMarker, hb2]
  · simp only [parseModelField, hdoc, split_promptMarker, hb2, hb3, hb4]

/-- Witness for the amended C8 at the scenario's single-line prompt and
model: parsing the rendered document recovers them exactly. -/
theorem C8_roundtrip_single_line_witness :
    parsePromptField (format_markdown (pys ("a red fox in snow")) scenarioArgs.result
        (pys ("fal-ai/flux/schnell")) (pys ("square_hd")) 28 (pys ("3.5")) (pys ("2"))
        scenarioNow) =
      some (pys ("a red fox in snow")) ∧
    parseModelField (format_markdown (pys ("a red fox in snow")) scenarioArgs.result
        (pys ("fal-ai/flux/schnell")) (pys ("square_hd")) 28 (pys ("3.5")) (pys ("2"))
        scenarioNow) =
      some (pys ("fal-ai/flux/schnell")) :=
  C8_roundtrip_single_line (pys ("a red fox in snow")) (pys ("fal-ai/flux/schnell"))
    scenarioArgs.result (pys ("square_hd")) 28 (pys ("3.5")) (pys ("2")) scenarioNow
    (by decide) (by decide)
